import Mathlib

/-!
Verification of the voyager Node binding (`src/nodejs/src/voyager-node.cc`)
against its natural-language specification.

The file shallowly embeds the claim-relevant parts of the binding:
  * the local `MemoryInputStream` (read / setPosition / peek),
  * the constructor's option handling and defaults,
  * `query`'s optional-argument handling and the single-vector result
    marshalling of neighbor labels,
  * the two-path (self-describing vs. legacy) load logic of `loadIndex`
    and `fromBuffer`, including the option-vs-metadata validation.

The index engine itself (TypedIndex, Metadata, StreamUtils headers) is not
part of the repository's files; where a claim depends on it, the relevant
behaviour is modelled from the specification and marked as such in the
doc comment of the definition.

Machine integers are modelled as `Nat`/`Int`; bytes are `Nat` values below
256 wherever they originate from serialization.
-/

namespace Voyager

/-! ## Little-endian byte encoding helpers -/

/-- Little-endian bytes of `n`, exactly `k` bytes wide (the layout used by
`memcpy` of fixed-width integers on the supported little-endian targets). -/
def natToBytesLE : Nat → Nat → List Nat
  | 0, _ => []
  | k + 1, n => n % 256 :: natToBytesLE k (n / 256)

/-- Interpret a byte list as a little-endian natural number. -/
def bytesToNatLE : List Nat → Nat
  | [] => 0
  | b :: bs => b + 256 * bytesToNatLE bs

/-- Read `k` raw bytes off the front of a byte list, failing when fewer
than `k` bytes remain. -/
def readRaw (k : Nat) (bs : List Nat) : Option (List Nat × List Nat) :=
  if k ≤ bs.length then some (bs.take k, bs.drop k) else none

/-- Read a `k`-byte little-endian integer off the front of a byte list. -/
def readLE (k : Nat) (bs : List Nat) : Option (Nat × List Nat) :=
  (readRaw k bs).map fun p => (bytesToNatLE p.1, p.2)

/-! ## MemoryInputStream (voyager-node.cc lines 17-59)

The stream is a byte string plus a cursor.  In the C++ source `position`
is a `long long` that the operations keep within `[0, data.size()]`; we
model it as a `Nat` and carry the upper bound as a hypothesis where a
statement needs it. -/

structure MemoryInputStream where
  data : List Nat
  position : Nat
deriving DecidableEq

namespace MemoryInputStream

/-- Model of `MemoryInputStream::read` (lines 24-32): at most
`bytesToRead` bytes are copied out, never more than remain; the cursor
advances by the amount copied and that amount is returned.  The result is
(bytes copied into the caller's buffer, returned count, stream after). -/
def read (s : MemoryInputStream) (bytesToRead : Int) :
    List Nat × Int × MemoryInputStream :=
  let bytesAvailable : Int := (s.data.length : Int) - (s.position : Int)
  let bytesToActuallyRead : Int := min bytesToRead bytesAvailable
  if 0 < bytesToActuallyRead then
    ((s.data.drop s.position).take bytesToActuallyRead.toNat,
     bytesToActuallyRead,
     { s with position := s.position + bytesToActuallyRead.toNat })
  else
    ([], bytesToActuallyRead, s)

/-- Model of `MemoryInputStream::setPosition` (lines 36-42): out-of-range
targets are refused and leave the cursor alone. -/
def setPosition (s : MemoryInputStream) (newPosition : Int) :
    Bool × MemoryInputStream :=
  if newPosition < 0 ∨ (s.data.length : Int) < newPosition then
    (false, s)
  else
    (true, { s with position := newPosition.toNat })

/-- Model of `MemoryInputStream::peek` (lines 44-54): the next four bytes
are read as one native-endian (little-endian on the supported targets)
32-bit integer without moving the cursor; with fewer than four bytes left
the C++ method throws, modelled as `none`.  The stream is returned
unchanged in both cases, mirroring that the method never mutates it. -/
def peek (s : MemoryInputStream) : Option Nat × MemoryInputStream :=
  if s.data.length < s.position + 4 then
    (none, s)
  else
    (some (bytesToNatLE ((s.data.drop s.position).take 4)), s)

end MemoryInputStream

/-! ## Enumerations (Enums.h, surfaced at voyager-node.cc lines 1023-1049) -/

/-- The three supported distance metrics. -/
inductive SpaceType
  | Euclidean
  | InnerProduct
  | Cosine
deriving DecidableEq

/-- The three supported storage codecs. -/
inductive StorageDataType
  | Float8
  | Float32
  | E4M3
deriving DecidableEq

/-- Modelled from the spec: bytes per stored vector component of each
codec (full-precision float is four bytes, the two 8-bit codecs one). -/
def storageSize : StorageDataType → Nat
  | .Float8 => 1
  | .Float32 => 4
  | .E4M3 => 1

/-! ## Index construction (voyager-node.cc lines 158-229)

The constructor takes a single options object; `space` and
`numDimensions` are required, everything else defaults. -/

/-- The caller's options object for `new Index(...)`: `none` models a
field the object does not have (`options.Has(...)` false). -/
structure ConstructOptions where
  space : Option SpaceType
  numDimensions : Option Int
  M : Option Nat
  efConstruction : Option Nat
  randomSeed : Option Nat
  maxElements : Option Nat
  storageDataType : Option StorageDataType
deriving DecidableEq

/-- The parameters handed to the `TypedIndex` constructor. -/
structure IndexConfig where
  space : SpaceType
  numDimensions : Int
  M : Nat
  efConstruction : Nat
  randomSeed : Nat
  maxElements : Nat
  storageDataType : StorageDataType
deriving DecidableEq

inductive ConstructError
  | missingRequiredArguments
deriving DecidableEq

/-- Model of the `IndexWrapper` constructor's option handling (lines
162-224): missing `space` or `numDimensions` is refused; each optional
field falls back to its documented default. -/
def constructIndex (o : ConstructOptions) : Except ConstructError IndexConfig :=
  match o.space, o.numDimensions with
  | some sp, some nd =>
    .ok { space := sp
          numDimensions := nd
          M := o.M.getD 12
          efConstruction := o.efConstruction.getD 200
          randomSeed := o.randomSeed.getD 1
          maxElements := o.maxElements.getD 1
          storageDataType := o.storageDataType.getD .Float32 }
  | _, _ => .error .missingRequiredArguments

/-! ## Query argument handling (voyager-node.cc lines 332-374) -/

/-- A JavaScript argument as the binding inspects it: either a number
(already coerced to the machine integer the binding extracts) or
anything for which `IsNumber()` is false. -/
inductive JsValue
  | num (value : Int)
  | nonNumber
deriving DecidableEq

/-- Model of lines 342-345: `k` defaults to 1 unless a second numeric
argument is present.  `info` is the full argument list, so the optional
`k` sits at position 1. -/
def queryK (info : List JsValue) : Int :=
  match info[1]? with
  | some (JsValue.num v) => v
  | _ => 1

/-- Model of lines 347-350: `numThreads` defaults to -1. -/
def queryNumThreads (info : List JsValue) : Int :=
  match info[2]? with
  | some (JsValue.num v) => v
  | _ => -1

/-- Model of lines 352-355: `queryEf` defaults to -1. -/
def queryEf (info : List JsValue) : Int :=
  match info[3]? with
  | some (JsValue.num v) => v
  | _ => -1

/-- The (k, numThreads, ef) triple the binding passes to the engine. -/
def queryEngineArgs (info : List JsValue) : Int × Int × Int :=
  (queryK info, queryNumThreads info, queryEf info)

/-! ## Neighbor-label marshalling of a single-vector query
(voyager-node.cc lines 364-374)

The single-vector result path copies the 64-bit neighbor labels into a
`std::vector<float>` before building the JavaScript array, so each label
passes through IEEE-754 binary32.  The conversion of a non-negative
integer to binary32 (round to nearest, ties to even) is modelled exactly
on `Nat`: values of at most 24 significant bits are preserved, wider
values are rounded to 24 significant bits.  Labels are below 2^64, far
inside binary32's finite range, so no overflow case arises. -/

/-- Bit length with structural fuel (64 suffices for any 64-bit label). -/
def bitLenAux : Nat → Nat → Nat
  | 0, _ => 0
  | fuel + 1, n => if n = 0 then 0 else bitLenAux fuel (n / 2) + 1

def bitLen (n : Nat) : Nat := bitLenAux 64 n

/-- Value of the C++ conversion `(float)label` for a label below 2^64:
round to 24 significant bits, ties to even. -/
def roundLabelToFloat32 (n : Nat) : Nat :=
  if bitLen n ≤ 24 then n
  else
    let s := bitLen n - 24
    let q := n / 2 ^ s
    let r := n % 2 ^ s
    let half := 2 ^ (s - 1)
    let q2 := if half < r ∨ (r = half ∧ q % 2 = 1) then q + 1 else q
    q2 * 2 ^ s

/-- Model of lines 370-372: the labels a single-vector query returns,
after the `std::vector<float>` copy (the later `Napi::Number` holds a
double, which represents every binary32 integer exactly). -/
def singleQueryNeighborLabels (neighborIds : List Nat) : List Nat :=
  neighborIds.map roundLabelToFloat32

/-! ## Loading: options, metadata and the two-path loader
(voyager-node.cc lines 567-703 and 844-981)

`loadIndex` and `fromBuffer` first try to read a metadata header; with a
header present every supplied option is validated against it, without
one the load falls back to the legacy path that needs explicit
parameters.  The `Metadata`/`StreamUtils`/`TypedIndex` machinery is not
part of this repository's files, so the self-describing byte format and
the header detection are modelled from the spec (format version, metric,
storage type, dimensionality, M, efConstruction, capacity and live
count in a magic-tagged header, followed by the per-point payload). -/

/-- Caller options of `loadIndex`/`fromBuffer` (both read the same three
fields, lines 584-598 and 862-876). -/
structure LoadOptions where
  space : Option SpaceType
  numDimensions : Option Int
  storageDataType : Option StorageDataType
deriving DecidableEq

/-- Modelled from the spec: the fields of the self-describing metadata
header.  `numElements` is the live count, `maxElements` the capacity. -/
structure Metadata where
  spaceType : SpaceType
  storageDataType : StorageDataType
  numDimensions : Nat
  M : Nat
  efConstruction : Nat
  maxElements : Nat
  numElements : Nat
deriving DecidableEq

/-- Modelled from the spec: an index as far as serialization observes
it — its metadata plus one (label, stored-vector bytes) pair per point.
The stored bytes are the codec output, so a round trip compares them
bit-for-bit. -/
structure StoredIndex where
  metadata : Metadata
  entries : List (Nat × List Nat)
deriving DecidableEq

inductive MismatchedParam
  | storageDataType
  | space
  | numDimensions
deriving DecidableEq

inductive LoadError
  | parameterMismatch (p : MismatchedParam)
  | missingParameters
  | corruptData
deriving DecidableEq

/-- What a successful load produces: a fully parsed self-describing
index, or a legacy index created with the caller's (defaulted)
parameters (the legacy byte parsing itself lives in the engine and is
outside every claim). -/
inductive LoadedIndex
  | modern (idx : StoredIndex)
  | legacy (space : SpaceType) (numDimensions : Int)
      (storageDataType : StorageDataType)
deriving DecidableEq

/-- Effective `numDimensions` of the load paths: both functions
initialize the local to 0 and overwrite it from the options (lines
581, 590-593 and 859, 868-871). -/
def effectiveNumDimensions (opts : LoadOptions) : Int :=
  opts.numDimensions.getD 0

/-- Effective `space`: initialized to Euclidean (lines 580, 858). -/
def effectiveSpace (opts : LoadOptions) : SpaceType :=
  opts.space.getD .Euclidean

/-- Effective `storageDataType`: initialized to Float32 (lines 582,
860). -/
def effectiveStorageDataType (opts : LoadOptions) : StorageDataType :=
  opts.storageDataType.getD .Float32

/-- Mismatch check against the metadata for one option of `loadIndex`
(lines 612-623). -/
def checkStorageDataTypeOption (opts : LoadOptions) (md : Metadata) :
    Option LoadError :=
  match opts.storageDataType with
  | some provided =>
    if md.storageDataType ≠ provided then
      some (.parameterMismatch .storageDataType)
    else none
  | none => none

/-- Mismatch check for the `space` option (lines 624-635). -/
def checkSpaceOption (opts : LoadOptions) (md : Metadata) :
    Option LoadError :=
  match opts.space with
  | some provided =>
    if md.spaceType ≠ provided then some (.parameterMismatch .space)
    else none
  | none => none

/-- Mismatch check for the `numDimensions` option (lines 636-649). -/
def checkNumDimensionsOption (opts : LoadOptions) (md : Metadata) :
    Option LoadError :=
  match opts.numDimensions with
  | some provided =>
    if (md.numDimensions : Int) ≠ provided then
      some (.parameterMismatch .numDimensions)
    else none
  | none => none

/-- The metadata-vs-options validation of `loadIndex` (lines 610-650):
storage type, then space, then dimensionality; the first conflict wins. -/
def validateOptionsLoadIndex (opts : LoadOptions) (md : Metadata) :
    Except LoadError Unit :=
  match checkStorageDataTypeOption opts md with
  | some e => .error e
  | none =>
    match checkSpaceOption opts md with
    | some e => .error e
    | none =>
      match checkNumDimensionsOption opts md with
      | some e => .error e
      | none => .ok ()

/-- The metadata-vs-options validation of `fromBuffer` (lines 888-928);
the source duplicates the `loadIndex` code verbatim. -/
def validateOptionsFromBuffer (opts : LoadOptions) (md : Metadata) :
    Except LoadError Unit :=
  match checkStorageDataTypeOption opts md with
  | some e => .error e
  | none =>
    match checkSpaceOption opts md with
    | some e => .error e
    | none =>
      match checkNumDimensionsOption opts md with
      | some e => .error e
      | none => .ok ()

/-- The legacy-path missing-parameter rejection of `loadIndex` (line
655: `numDimensions <= 0`). -/
def legacyMissingRejectLoadIndex (opts : LoadOptions) : Bool :=
  effectiveNumDimensions opts ≤ 0

/-- The legacy-path missing-parameter rejection of `fromBuffer` (line
933: `numDimensions == 0`). -/
def legacyMissingRejectFromBuffer (opts : LoadOptions) : Bool :=
  effectiveNumDimensions opts = 0

/-! ### The serialized byte format (modelled from the spec) -/

/-- Modelled from the spec: the fixed four-byte tag that opens a
self-describing file; a stream not starting with it is a legacy file. -/
def metadataMagic : List Nat := [86, 79, 89, 65]

/-- One-byte code of a metric in the header. -/
def spaceTypeCode : SpaceType → Nat
  | .Euclidean => 0
  | .InnerProduct => 1
  | .Cosine => 2

def decodeSpaceTypeCode : Nat → Option SpaceType
  | 0 => some .Euclidean
  | 1 => some .InnerProduct
  | 2 => some .Cosine
  | _ => none

/-- One-byte code of a storage codec in the header. -/
def storageDataTypeCode : StorageDataType → Nat
  | .Float8 => 16
  | .Float32 => 32
  | .E4M3 => 48

def decodeStorageDataTypeCode : Nat → Option StorageDataType
  | 16 => some .Float8
  | 32 => some .Float32
  | 48 => some .E4M3
  | _ => none

/-- Split the fixed-width fields of a record off the front of a byte
stream: one segment per requested length, plus the unread remainder. -/
def splitSegments : List Nat → List Nat → Option (List (List Nat) × List Nat)
  | [], bs => some ([], bs)
  | k :: ks, bs =>
    match readRaw k bs with
    | none => none
    | some (seg, rest) =>
      match splitSegments ks rest with
      | none => none
      | some (segs, rem) => some (seg :: segs, rem)

/-- Byte widths of the nine header fields: magic, version, metric,
storage type, dimensionality, M, efConstruction, capacity, live
count. -/
def headerLengths : List Nat := [4, 1, 1, 1, 4, 4, 4, 8, 8]

/-- Modelled from the spec: the serialized metadata header as its nine
fixed-width fields, widths as in `headerLengths`. -/
def metadataSegments (md : Metadata) : List (List Nat) :=
  [metadataMagic, [1], [spaceTypeCode md.spaceType],
   [storageDataTypeCode md.storageDataType],
   natToBytesLE 4 md.numDimensions, natToBytesLE 4 md.M,
   natToBytesLE 4 md.efConstruction, natToBytesLE 8 md.maxElements,
   natToBytesLE 8 md.numElements]

/-- Modelled from the spec: the serialized metadata header. -/
def serializeMetadata (md : Metadata) : List Nat := (metadataSegments md).flatten

/-- Modelled from the spec: parse the metadata header, cross-checking
the magic and the version before trusting the rest; returns the header
and the unread remainder. -/
def parseMetadata (bs : List Nat) : Option (Metadata × List Nat) :=
  match splitSegments headerLengths bs with
  | some ([mg, ver, spc, stc, dims, m, efc, mx, cnt], rest) =>
    if mg = metadataMagic then
      if ver = [1] then
        match decodeSpaceTypeCode (bytesToNatLE spc),
            decodeStorageDataTypeCode (bytesToNatLE stc) with
        | some sp, some st =>
          some (⟨sp, st, bytesToNatLE dims, bytesToNatLE m, bytesToNatLE efc,
                 bytesToNatLE mx, bytesToNatLE cnt⟩, rest)
        | _, _ => none
      else none
    else none
  | _ => none

/-- Serialized form of one point: 8-byte little-endian label followed by
the stored vector bytes. -/
def encodeEntry (e : Nat × List Nat) : List Nat :=
  natToBytesLE 8 e.1 ++ e.2

/-- Modelled from the spec: parse `count` points, each `sz` stored
bytes wide. -/
def parseEntries (sz : Nat) : Nat → List Nat → Option (List (Nat × List Nat))
  | 0, _ => some []
  | count + 1, bs => do
    let (lab, r1) ← readLE 8 bs
    let (vec, r2) ← readRaw sz r1
    let rest ← parseEntries sz count r2
    some ((lab, vec) :: rest)

/-- Model of `toBuffer` (lines 828-842): the engine's `saveIndex` into a
memory stream; the byte layout is modelled from the spec (header, then
the per-point payload). -/
def serializeIndex (I : StoredIndex) : List Nat :=
  serializeMetadata I.metadata ++ (I.entries.map encodeEntry).flatten

/-- Model of `loadIndex` (lines 567-703).  The header probe peeks the
first 32-bit word of the stream exactly as the engine's
`Metadata::loadFromStream` does; a magic match selects the
self-describing path (validate the options against the header, then
parse the body), anything else the legacy path with its
`numDimensions <= 0` guard. -/
def loadIndexModel (opts : LoadOptions) (bytes : List Nat) :
    Except LoadError LoadedIndex :=
  match MemoryInputStream.peek ⟨bytes, 0⟩ with
  | (none, _) => .error .corruptData
  | (some magicWord, _) =>
    if magicWord = bytesToNatLE metadataMagic then
      match parseMetadata bytes with
      | none => .error .corruptData
      | some (md, body) =>
        match validateOptionsLoadIndex opts md with
        | .error e => .error e
        | .ok _ =>
          match parseEntries (md.numDimensions * storageSize md.storageDataType)
              md.numElements body with
          | none => .error .corruptData
          | some entries => .ok (.modern ⟨md, entries⟩)
    else
      if legacyMissingRejectLoadIndex opts then .error .missingParameters
      else
        .ok (.legacy (effectiveSpace opts) (effectiveNumDimensions opts)
          (effectiveStorageDataType opts))

/-- Model of `fromBuffer` (lines 844-981): identical to `loadIndexModel`
except for the legacy guard (`numDimensions == 0`, line 933) and the use
of the duplicated validation block. -/
def fromBufferModel (opts : LoadOptions) (bytes : List Nat) :
    Except LoadError LoadedIndex :=
  match MemoryInputStream.peek ⟨bytes, 0⟩ with
  | (none, _) => .error .corruptData
  | (some magicWord, _) =>
    if magicWord = bytesToNatLE metadataMagic then
      match parseMetadata bytes with
      | none => .error .corruptData
      | some (md, body) =>
        match validateOptionsFromBuffer opts md with
        | .error e => .error e
        | .ok _ =>
          match parseEntries (md.numDimensions * storageSize md.storageDataType)
              md.numElements body with
          | none => .error .corruptData
          | some entries => .ok (.modern ⟨md, entries⟩)
    else
      if legacyMissingRejectFromBuffer opts then .error .missingParameters
      else
        .ok (.legacy (effectiveSpace opts) (effectiveNumDimensions opts)
          (effectiveStorageDataType opts))

/-! ### Spec-side predicates used to state the validation claims -/

/-- The spec's notion of one supplied option agreeing with the stored
metadata (an absent option agrees vacuously). -/
def suppliedParamMatches (opts : LoadOptions) (md : Metadata) :
    MismatchedParam → Bool
  | .storageDataType =>
    match opts.storageDataType with
    | some v => decide (md.storageDataType = v)
    | none => true
  | .space =>
    match opts.space with
    | some v => decide (md.spaceType = v)
    | none => true
  | .numDimensions =>
    match opts.numDimensions with
    | some v => decide ((md.numDimensions : Int) = v)
    | none => true

/-- Every supplied option agrees with the stored metadata. -/
def suppliedOptionsMatch (opts : LoadOptions) (md : Metadata) : Bool :=
  suppliedParamMatches opts md .storageDataType &&
    suppliedParamMatches opts md .space &&
    suppliedParamMatches opts md .numDimensions

/-- Well-formedness of a stored index: the width bounds of the header
fields, the recorded live count, and every entry shaped by the codec.
These hold of any index the engine can actually save. -/
def WellFormed (I : StoredIndex) : Prop :=
  I.metadata.numDimensions < 2 ^ 32 ∧ I.metadata.M < 2 ^ 32 ∧
    I.metadata.efConstruction < 2 ^ 32 ∧ I.metadata.maxElements < 2 ^ 64 ∧
    I.metadata.numElements = I.entries.length ∧ I.entries.length < 2 ^ 64 ∧
    ∀ e ∈ I.entries, e.1 < 2 ^ 64 ∧
      e.2.length = I.metadata.numDimensions * storageSize I.metadata.storageDataType

instance (I : StoredIndex) : Decidable (WellFormed I) := by
  unfold WellFormed; infer_instance

/-! ## Basic lemmas about the byte helpers -/

theorem natToBytesLE_length (k n : Nat) : (natToBytesLE k n).length = k := by
  induction k generalizing n with
  | zero => rfl
  | succ k ih => simp [natToBytesLE, ih]

theorem bytesToNatLE_natToBytesLE (k n : Nat) (h : n < 256 ^ k) :
    bytesToNatLE (natToBytesLE k n) = n := by
  induction k generalizing n with
  | zero =>
    simp [natToBytesLE, bytesToNatLE]
    omega
  | succ k ih =>
    have hdiv : n / 256 < 256 ^ k := by
      have : n < 256 ^ k * 256 := by
        calc n < 256 ^ (k + 1) := h
        _ = 256 ^ k * 256 := by ring
      exact Nat.div_lt_of_lt_mul (by omega)
    simp [natToBytesLE, bytesToNatLE, ih _ hdiv]
    omega

theorem readRaw_append (k : Nat) (xs ys : List Nat) (h : xs.length = k) :
    readRaw k (xs ++ ys) = some (xs, ys) := by
  subst h
  simp [readRaw, List.take_left, List.drop_left]

theorem readLE_append (k : Nat) (xs ys : List Nat) (h : xs.length = k) :
    readLE k (xs ++ ys) = some (bytesToNatLE xs, ys) := by
  simp [readLE, readRaw_append k xs ys h]

theorem readLE_natToBytesLE (k n : Nat) (ys : List Nat) (h : n < 256 ^ k) :
    readLE k (natToBytesLE k n ++ ys) = some (n, ys) := by
  rw [readLE_append k _ _ (natToBytesLE_length k n),
    bytesToNatLE_natToBytesLE k n h]

theorem bytesToNatLE_singleton (b : Nat) : bytesToNatLE [b] = b := by
  simp [bytesToNatLE]

theorem decodeSpaceTypeCode_spaceTypeCode (sp : SpaceType) :
    decodeSpaceTypeCode (spaceTypeCode sp) = some sp := by
  cases sp <;> rfl

theorem decodeStorageDataTypeCode_storageDataTypeCode (st : StorageDataType) :
    decodeStorageDataTypeCode (storageDataTypeCode st) = some st := by
  cases st <;> rfl

/-! ## Round-trip lemmas for the serialized format -/

theorem splitSegments_append (segs : List (List Nat)) (tail : List Nat) :
    splitSegments (segs.map List.length) (segs.flatten ++ tail) =
      some (segs, tail) := by
  induction segs with
  | nil => rfl
  | cons s ss ih =>
    simp only [List.map_cons, List.flatten_cons, List.append_assoc,
      splitSegments, readRaw_append s.length s _ rfl, ih]

theorem parseMetadata_serializeMetadata (md : Metadata) (tail : List Nat)
    (h1 : md.numDimensions < 2 ^ 32) (h2 : md.M < 2 ^ 32)
    (h3 : md.efConstruction < 2 ^ 32) (h4 : md.maxElements < 2 ^ 64)
    (h5 : md.numElements < 2 ^ 64) :
    parseMetadata (serializeMetadata md ++ tail) = some (md, tail) := by
  have e4 : (2:Nat) ^ 32 = 256 ^ 4 := by norm_num
  have e8 : (2:Nat) ^ 64 = 256 ^ 8 := by norm_num
  rw [e4] at h1 h2 h3
  rw [e8] at h4 h5
  have hlen : headerLengths = (metadataSegments md).map List.length := by
    simp [headerLengths, metadataSegments, natToBytesLE_length, metadataMagic]
  rw [parseMetadata, serializeMetadata, hlen, splitSegments_append]
  simp only [metadataSegments, bytesToNatLE_natToBytesLE 4 md.numDimensions h1,
    bytesToNatLE_natToBytesLE 4 md.M h2,
    bytesToNatLE_natToBytesLE 4 md.efConstruction h3,
    bytesToNatLE_natToBytesLE 8 md.maxElements h4,
    bytesToNatLE_natToBytesLE 8 md.numElements h5,
    bytesToNatLE_singleton, decodeSpaceTypeCode_spaceTypeCode,
    decodeStorageDataTypeCode_storageDataTypeCode, if_true]

theorem parseEntries_encode (sz : Nat) (entries : List (Nat × List Nat))
    (tail : List Nat) (h : ∀ e ∈ entries, e.1 < 2 ^ 64 ∧ e.2.length = sz) :
    parseEntries sz entries.length ((entries.map encodeEntry).flatten ++ tail) =
      some entries := by
  induction entries with
  | nil => rfl
  | cons e es ih =>
    obtain ⟨he1, he2⟩ := h e (by simp)
    have e8 : (2:Nat) ^ 64 = 256 ^ 8 := by norm_num
    simp only [List.map_cons, List.flatten_cons, List.length_cons,
      List.append_assoc, parseEntries, encodeEntry]
    rw [readLE_natToBytesLE 8 e.1 _ (e8 ▸ he1)]
    simp only [Option.bind_eq_bind, Option.some_bind]
    rw [readRaw_append sz e.2 _ he2]
    simp only [Option.some_bind]
    rw [ih (fun x hx => h x (List.mem_cons_of_mem e hx))]
    rfl

theorem peek_magic_append (ys : List Nat) :
    MemoryInputStream.peek ⟨metadataMagic ++ ys, 0⟩ =
      (some (bytesToNatLE metadataMagic), ⟨metadataMagic ++ ys, 0⟩) := by
  unfold MemoryInputStream.peek
  rw [if_neg (by simp [metadataMagic])]
  simp [metadataMagic]

theorem parseEntries_encode_nil (sz : Nat) (entries : List (Nat × List Nat))
    (h : ∀ e ∈ entries, e.1 < 2 ^ 64 ∧ e.2.length = sz) :
    parseEntries sz entries.length ((entries.map encodeEntry).flatten) =
      some entries := by
  have := parseEntries_encode sz entries [] h
  simpa using this

theorem serializeIndex_magic (I : StoredIndex) :
    serializeIndex I = metadataMagic ++
      (([[1], [spaceTypeCode I.metadata.spaceType],
         [storageDataTypeCode I.metadata.storageDataType],
         natToBytesLE 4 I.metadata.numDimensions,
         natToBytesLE 4 I.metadata.M,
         natToBytesLE 4 I.metadata.efConstruction,
         natToBytesLE 8 I.metadata.maxElements,
         natToBytesLE 8 I.metadata.numElements] : List (List Nat)).flatten ++
        (I.entries.map encodeEntry).flatten) := by
  simp [serializeIndex, serializeMetadata, metadataSegments, List.append_assoc]

theorem peek_serializeIndex (I : StoredIndex) :
    MemoryInputStream.peek ⟨serializeIndex I, 0⟩ =
      (some (bytesToNatLE metadataMagic), ⟨serializeIndex I, 0⟩) := by
  rw [serializeIndex_magic I, peek_magic_append]

theorem loadIndexModel_serializeIndex (opts : LoadOptions) (I : StoredIndex)
    (hwf : WellFormed I) :
    loadIndexModel opts (serializeIndex I) =
      (match validateOptionsLoadIndex opts I.metadata with
       | .error e => .error e
       | .ok _ => Except.ok (.modern I)) := by
  obtain ⟨h1, h2, h3, h4, hcnt, hlen64, hent⟩ := hwf
  unfold loadIndexModel
  rw [peek_serializeIndex I]
  simp only [if_true]
  rw [show serializeIndex I =
      serializeMetadata I.metadata ++ (I.entries.map encodeEntry).flatten from rfl]
  rw [parseMetadata_serializeMetadata I.metadata _ h1 h2 h3 h4 (hcnt ▸ hlen64)]
  dsimp only
  rw [hcnt, parseEntries_encode_nil _ _ hent]

theorem fromBufferModel_serializeIndex (opts : LoadOptions) (I : StoredIndex)
    (hwf : WellFormed I) :
    fromBufferModel opts (serializeIndex I) =
      (match validateOptionsFromBuffer opts I.metadata with
       | .error e => .error e
       | .ok _ => Except.ok (.modern I)) := by
  obtain ⟨h1, h2, h3, h4, hcnt, hlen64, hent⟩ := hwf
  unfold fromBufferModel
  rw [peek_serializeIndex I]
  simp only [if_true]
  rw [show serializeIndex I =
      serializeMetadata I.metadata ++ (I.entries.map encodeEntry).flatten from rfl]
  rw [parseMetadata_serializeMetadata I.metadata _ h1 h2 h3 h4 (hcnt ▸ hlen64)]
  dsimp only
  rw [hcnt, parseEntries_encode_nil _ _ hent]

/-! ## Validation lemmas -/

theorem validate_ok (opts : LoadOptions) (md : Metadata)
    (h : suppliedOptionsMatch opts md = true) :
    validateOptionsLoadIndex opts md = .ok () := by
  rcases opts with ⟨osp, ond, ost⟩
  cases ost <;> cases osp <;> cases ond <;>
    simp_all [suppliedOptionsMatch, suppliedParamMatches,
      validateOptionsLoadIndex, checkStorageDataTypeOption, checkSpaceOption,
      checkNumDimensionsOption]

theorem validate_mismatch (opts : LoadOptions) (md : Metadata)
    (h : suppliedOptionsMatch opts md = false) :
    ∃ p, suppliedParamMatches opts md p = false ∧
      validateOptionsLoadIndex opts md = .error (.parameterMismatch p) := by
  by_cases hst : suppliedParamMatches opts md .storageDataType = false
  · refine ⟨.storageDataType, hst, ?_⟩
    rcases opts with ⟨osp, ond, ost⟩
    cases ost <;>
      simp_all [suppliedParamMatches, validateOptionsLoadIndex,
        checkStorageDataTypeOption]
  · by_cases hsp : suppliedParamMatches opts md .space = false
    · refine ⟨.space, hsp, ?_⟩
      rcases opts with ⟨osp, ond, ost⟩
      cases ost <;> cases osp <;>
        simp_all [suppliedParamMatches, validateOptionsLoadIndex,
          checkStorageDataTypeOption, checkSpaceOption]
    · have hnd : suppliedParamMatches opts md .numDimensions = false := by
        simp only [suppliedOptionsMatch, Bool.and_eq_false_iff] at h
        rcases h with (h | h) | h
        · exact absurd h hst
        · exact absurd h hsp
        · exact h
      refine ⟨.numDimensions, hnd, ?_⟩
      rcases opts with ⟨osp, ond, ost⟩
      cases ost <;> cases osp <;> cases ond <;>
        simp_all [suppliedParamMatches, validateOptionsLoadIndex,
          checkStorageDataTypeOption, checkSpaceOption,
          checkNumDimensionsOption]

theorem validateFromBuffer_eq_validateLoadIndex :
    validateOptionsFromBuffer = validateOptionsLoadIndex := rfl

/-! ## Legacy-branch equations -/

theorem loadIndexModel_legacy (opts : LoadOptions) (bytes : List Nat)
    (h4 : 4 ≤ bytes.length)
    (hm : bytesToNatLE (bytes.take 4) ≠ bytesToNatLE metadataMagic) :
    loadIndexModel opts bytes =
      (if legacyMissingRejectLoadIndex opts then .error .missingParameters
       else Except.ok (.legacy (effectiveSpace opts) (effectiveNumDimensions opts)
         (effectiveStorageDataType opts))) := by
  unfold loadIndexModel MemoryInputStream.peek
  rw [if_neg (by simp only; omega)]
  dsimp only
  rw [List.drop_zero, if_neg hm]

theorem fromBufferModel_legacy (opts : LoadOptions) (bytes : List Nat)
    (h4 : 4 ≤ bytes.length)
    (hm : bytesToNatLE (bytes.take 4) ≠ bytesToNatLE metadataMagic) :
    fromBufferModel opts bytes =
      (if legacyMissingRejectFromBuffer opts then .error .missingParameters
       else Except.ok (.legacy (effectiveSpace opts) (effectiveNumDimensions opts)
         (effectiveStorageDataType opts))) := by
  unfold fromBufferModel MemoryInputStream.peek
  rw [if_neg (by simp only; omega)]
  dsimp only
  rw [List.drop_zero, if_neg hm]

/-! ## Claim theorems -/

/-- C1: on a self-describing load (both `loadIndex` and `fromBuffer`),
every caller-supplied option that conflicts with the stored metadata
makes the load fail with a parameter-mismatch error naming a conflicting
parameter, and the stored metadata is never overridden; when every
supplied option matches (in particular when none is supplied) the load
proceeds and yields exactly the stored index. -/
theorem load_selfDescribing_option_validation (opts : LoadOptions)
    (I : StoredIndex) (hwf : WellFormed I) :
    (suppliedOptionsMatch opts I.metadata = true →
      loadIndexModel opts (serializeIndex I) = .ok (.modern I) ∧
      fromBufferModel opts (serializeIndex I) = .ok (.modern I)) ∧
    (suppliedOptionsMatch opts I.metadata = false →
      ∃ p, suppliedParamMatches opts I.metadata p = false ∧
        loadIndexModel opts (serializeIndex I) = .error (.parameterMismatch p) ∧
        fromBufferModel opts (serializeIndex I) = .error (.parameterMismatch p)) := by
  constructor
  · intro h
    rw [loadIndexModel_serializeIndex _ _ hwf, fromBufferModel_serializeIndex _ _ hwf,
      validateFromBuffer_eq_validateLoadIndex, validate_ok _ _ h]
    exact ⟨rfl, rfl⟩
  · intro h
    obtain ⟨p, hp, herr⟩ := validate_mismatch opts I.metadata h
    refine ⟨p, hp, ?_, ?_⟩
    · rw [loadIndexModel_serializeIndex _ _ hwf, herr]
    · rw [fromBufferModel_serializeIndex _ _ hwf,
        validateFromBuffer_eq_validateLoadIndex, herr]

/-- Witness for C1 at a concrete index and a conflicting
`numDimensions` option. -/
theorem load_selfDescribing_option_validation_witness :
    ∃ p, suppliedParamMatches ⟨none, some 2, none⟩
        (⟨⟨SpaceType.Euclidean, StorageDataType.Float32, 1, 12, 200, 1, 1⟩,
          [(3, [9, 8, 7, 6])]⟩ : StoredIndex).metadata p = false ∧
      loadIndexModel ⟨none, some 2, none⟩
        (serializeIndex ⟨⟨SpaceType.Euclidean, StorageDataType.Float32, 1, 12, 200, 1, 1⟩,
          [(3, [9, 8, 7, 6])]⟩) = .error (.parameterMismatch p) ∧
      fromBufferModel ⟨none, some 2, none⟩
        (serializeIndex ⟨⟨SpaceType.Euclidean, StorageDataType.Float32, 1, 12, 200, 1, 1⟩,
          [(3, [9, 8, 7, 6])]⟩) = .error (.parameterMismatch p) :=
  (load_selfDescribing_option_validation ⟨none, some 2, none⟩
    ⟨⟨SpaceType.Euclidean, StorageDataType.Float32, 1, 12, 200, 1, 1⟩,
      [(3, [9, 8, 7, 6])]⟩ (by decide)).2 (by decide)

/-- C2 counterexample: a legacy (header-less) load whose options supply
`numDimensions` but omit both `space` and `storageDataType` proceeds
with defaults instead of failing, refuting the claim that absence of
any of the three parameters is an error. -/
theorem legacy_load_absent_space_counterexample :
    loadIndexModel ⟨none, some 4, none⟩ [0, 0, 0, 0] =
      .ok (.legacy SpaceType.Euclidean 4 StorageDataType.Float32) := rfl

/-- C2 as amended: a legacy load fails with the missing-parameters
error exactly when the effective `numDimensions` (the supplied value,
0 when absent) is non-positive in `loadIndex`, respectively zero in
`fromBuffer`; an absent `space` silently defaults to Euclidean and an
absent `storageDataType` to Float32. -/
theorem legacy_load_missing_numDimensions (opts : LoadOptions)
    (bytes : List Nat) (h4 : 4 ≤ bytes.length)
    (hm : bytesToNatLE (bytes.take 4) ≠ bytesToNatLE metadataMagic) :
    (loadIndexModel opts bytes = .error .missingParameters ↔
      effectiveNumDimensions opts ≤ 0) ∧
    (fromBufferModel opts bytes = .error .missingParameters ↔
      effectiveNumDimensions opts = 0) ∧
    (0 < effectiveNumDimensions opts →
      loadIndexModel opts bytes =
        .ok (.legacy (effectiveSpace opts) (effectiveNumDimensions opts)
          (effectiveStorageDataType opts)) ∧
      fromBufferModel opts bytes =
        .ok (.legacy (effectiveSpace opts) (effectiveNumDimensions opts)
          (effectiveStorageDataType opts))) := by
  rw [loadIndexModel_legacy opts bytes h4 hm, fromBufferModel_legacy opts bytes h4 hm]
  unfold legacyMissingRejectLoadIndex legacyMissingRejectFromBuffer
  by_cases h0 : effectiveNumDimensions opts ≤ 0 <;>
    by_cases he : effectiveNumDimensions opts = 0 <;>
    simp_all

/-- Witness for C2 as amended, at legacy bytes and options supplying
only `numDimensions = 4`. -/
theorem legacy_load_missing_numDimensions_witness :
    (loadIndexModel ⟨none, some 4, none⟩ [0, 0, 0, 0] =
        .error .missingParameters ↔
      effectiveNumDimensions ⟨none, some 4, none⟩ ≤ 0) ∧
    (fromBufferModel ⟨none, some 4, none⟩ [0, 0, 0, 0] =
        .error .missingParameters ↔
      effectiveNumDimensions ⟨none, some 4, none⟩ = 0) ∧
    (0 < effectiveNumDimensions ⟨none, some 4, none⟩ →
      loadIndexModel ⟨none, some 4, none⟩ [0, 0, 0, 0] =
        .ok (.legacy (effectiveSpace ⟨none, some 4, none⟩)
          (effectiveNumDimensions ⟨none, some 4, none⟩)
          (effectiveStorageDataType ⟨none, some 4, none⟩)) ∧
      fromBufferModel ⟨none, some 4, none⟩ [0, 0, 0, 0] =
        .ok (.legacy (effectiveSpace ⟨none, some 4, none⟩)
          (effectiveNumDimensions ⟨none, some 4, none⟩)
          (effectiveStorageDataType ⟨none, some 4, none⟩))) :=
  legacy_load_missing_numDimensions ⟨none, some 4, none⟩ [0, 0, 0, 0]
    (by decide) (by decide)

/-- C3: loading the bytes produced by saving an index, with no
caller-supplied options, succeeds and yields an index with the same
labels and bit-identical stored vectors (hence equal up to the codec's
quantization error, and exactly equal for full-precision storage, since
the stored bytes are the codec output). -/
theorem serialize_roundtrip_ids_and_vectors (I : StoredIndex)
    (hwf : WellFormed I) :
    ∃ J, fromBufferModel ⟨none, none, none⟩ (serializeIndex I) =
        .ok (.modern J) ∧
      J.entries.map Prod.fst = I.entries.map Prod.fst ∧
      J.entries.map Prod.snd = I.entries.map Prod.snd := by
  refine ⟨I, ?_, rfl, rfl⟩
  rw [fromBufferModel_serializeIndex _ _ hwf]
  rfl

/-- Witness for C3 at a concrete one-point index. -/
theorem serialize_roundtrip_ids_and_vectors_witness :
    ∃ J, fromBufferModel ⟨none, none, none⟩
        (serializeIndex ⟨⟨SpaceType.Cosine, StorageDataType.E4M3, 4, 12, 200, 1, 1⟩,
          [(3, [9, 8, 7, 6])]⟩) = .ok (.modern J) ∧
      J.entries.map Prod.fst =
        (⟨⟨SpaceType.Cosine, StorageDataType.E4M3, 4, 12, 200, 1, 1⟩,
          [(3, [9, 8, 7, 6])]⟩ : StoredIndex).entries.map Prod.fst ∧
      J.entries.map Prod.snd =
        (⟨⟨SpaceType.Cosine, StorageDataType.E4M3, 4, 12, 200, 1, 1⟩,
          [(3, [9, 8, 7, 6])]⟩ : StoredIndex).entries.map Prod.snd :=
  serialize_roundtrip_ids_and_vectors
    ⟨⟨SpaceType.Cosine, StorageDataType.E4M3, 4, 12, 200, 1, 1⟩,
      [(3, [9, 8, 7, 6])]⟩ (by decide)

/-- C4: construction fails exactly when `space` or `numDimensions` is
absent, and every omitted optional option gets its documented default:
M = 12, efConstruction = 200, randomSeed = 1, maxElements = 1,
storageDataType = Float32. -/
theorem construct_requires_and_defaults (o : ConstructOptions) :
    ((∃ e, constructIndex o = .error e) ↔
      o.space = none ∨ o.numDimensions = none) ∧
    (∀ cfg, constructIndex o = .ok cfg →
      (o.M = none → cfg.M = 12) ∧
      (o.efConstruction = none → cfg.efConstruction = 200) ∧
      (o.randomSeed = none → cfg.randomSeed = 1) ∧
      (o.maxElements = none → cfg.maxElements = 1) ∧
      (o.storageDataType = none → cfg.storageDataType = .Float32)) := by
  rcases o with ⟨osp, ond, oM, oef, ors, omx, ost⟩
  constructor
  · cases osp <;> cases ond <;>
      simp [constructIndex] <;>
      exact ⟨.missingRequiredArguments, trivial⟩
  · intro cfg hcfg
    cases osp <;> cases ond <;> simp [constructIndex] at hcfg
    subst hcfg
    exact ⟨fun h => by subst h; rfl, fun h => by subst h; rfl,
      fun h => by subst h; rfl, fun h => by subst h; rfl,
      fun h => by subst h; rfl⟩

/-- C5: on a query call, each omitted optional argument takes exactly
its default: k = 1, numThreads = -1, ef = -1. -/
theorem query_optional_argument_defaults (info : List JsValue) :
    (info.length ≤ 1 → queryEngineArgs info = (1, -1, -1)) ∧
    (info.length ≤ 2 → queryNumThreads info = -1 ∧ queryEf info = -1) ∧
    (info.length ≤ 3 → queryEf info = -1) := by
  refine ⟨fun h => ?_, fun h => ⟨?_, ?_⟩, fun h => ?_⟩
  · have g1 : info[1]? = none := List.getElem?_eq_none (by omega)
    have g2 : info[2]? = none := List.getElem?_eq_none (by omega)
    have g3 : info[3]? = none := List.getElem?_eq_none (by omega)
    simp [queryEngineArgs, queryK, queryNumThreads, queryEf, g1, g2, g3]
  · have g2 : info[2]? = none := List.getElem?_eq_none (by omega)
    simp [queryNumThreads, g2]
  · have g3 : info[3]? = none := List.getElem?_eq_none (by omega)
    simp [queryEf, g3]
  · have g3 : info[3]? = none := List.getElem?_eq_none (by omega)
    simp [queryEf, g3]

/-- C6 (code bug): the single-vector query path routes each 64-bit
neighbor label through a 32-bit float, so the label 16777217 (2^24 + 1)
comes back as 16777216 — not the exact label the claim requires.  The
first component evaluates the marshalling at the failing input, the
second states the rounding. -/
theorem singleQuery_label_float32_rounding :
    singleQueryNeighborLabels [16777216, 16777217] = [16777216, 16777216] ∧
    roundLabelToFloat32 16777217 ≠ 16777217 := by decide

/-- C7: `peek` returns the next four bytes as one little-endian 32-bit
word when at least four bytes remain past the cursor and fails
otherwise, and in both cases the stream — its cursor included — is
unchanged. -/
theorem memoryInputStream_peek_spec (s : MemoryInputStream) :
    s.peek = (if s.position + 4 ≤ s.data.length
        then some (bytesToNatLE ((s.data.drop s.position).take 4))
        else none, s) := by
  unfold MemoryInputStream.peek
  by_cases h : s.position + 4 ≤ s.data.length
  · rw [if_neg (by omega), if_pos h]
  · rw [if_pos (by omega), if_neg h]

/-- C8: `read` returns exactly min(bytesToRead, length - position)
bytes, taken from the data at the cursor, advances the cursor by that
amount and reports that amount. -/
theorem memoryInputStream_read_spec (s : MemoryInputStream) (n : Int)
    (hp : s.position ≤ s.data.length) (hn : 0 ≤ n) :
    s.read n = ((s.data.drop s.position).take
        (min n.toNat (s.data.length - s.position)),
      ((min n.toNat (s.data.length - s.position) : Nat) : Int),
      { s with position :=
          s.position + min n.toNat (s.data.length - s.position) }) := by
  unfold MemoryInputStream.read
  dsimp only
  have hmin : min n ((s.data.length : Int) - (s.position : Int)) =
      ((min n.toNat (s.data.length - s.position) : Nat) : Int) := by
    rw [Int.min_def, Nat.min_def]
    split_ifs <;> omega
  rw [hmin]
  by_cases h : 0 < ((min n.toNat (s.data.length - s.position) : Nat) : Int)
  · rw [if_pos h]
    simp only [Int.toNat_natCast]
  · rw [if_neg h]
    have h0 : min n.toNat (s.data.length - s.position) = 0 := by omega
    simp [h0]

/-- Witness for C8 at a concrete stream and request. -/
theorem memoryInputStream_read_spec_witness :
    MemoryInputStream.read ⟨[10, 20, 30], 1⟩ 5 =
      ((([10, 20, 30].drop 1).take (min (Int.toNat 5) ([10, 20, 30].length - 1)),
        ((min (Int.toNat 5) ([10, 20, 30].length - 1) : Nat) : Int),
        ⟨[10, 20, 30], 1 + min (Int.toNat 5) ([10, 20, 30].length - 1)⟩)) :=
  memoryInputStream_read_spec ⟨[10, 20, 30], 1⟩ 5 (by decide) (by decide)

/-- C9: `setPosition` succeeds and moves the cursor exactly when the
target is between 0 and the total length inclusive; otherwise it
reports failure and leaves the stream unchanged. -/
theorem memoryInputStream_setPosition_spec (s : MemoryInputStream) (p : Int) :
    s.setPosition p = if 0 ≤ p ∧ p ≤ (s.data.length : Int)
      then (true, { s with position := p.toNat })
      else (false, s) := by
  unfold MemoryInputStream.setPosition
  by_cases h : 0 ≤ p ∧ p ≤ (s.data.length : Int)
  · rw [if_neg (by omega), if_pos h]
  · rw [if_pos (by omega), if_neg h]

/-- C10 counterexample: with a supplied `numDimensions = -3`, the
legacy path of `loadIndex` rejects with the missing-parameters error
(`numDimensions <= 0`) while `fromBuffer` (`numDimensions == 0`)
proceeds, so the two checks are not the same function of the
options. -/
theorem legacy_reject_disagreement_counterexample :
    loadIndexModel ⟨none, some (-3), none⟩ [0, 0, 0, 0] =
        .error .missingParameters ∧
    fromBufferModel ⟨none, some (-3), none⟩ [0, 0, 0, 0] =
        .ok (.legacy SpaceType.Euclidean (-3) StorageDataType.Float32) :=
  ⟨rfl, rfl⟩

/-- C10 as amended: `loadIndex`'s legacy rejection is `fromBuffer`'s
rejection OR-ed with the supplied `numDimensions` being negative; the
two agree exactly on option sets whose effective `numDimensions` is
non-negative (in particular whenever it is absent). -/
theorem legacy_reject_agreement (opts : LoadOptions) :
    legacyMissingRejectLoadIndex opts =
      (legacyMissingRejectFromBuffer opts ||
        decide (effectiveNumDimensions opts < 0)) := by
  unfold legacyMissingRejectLoadIndex legacyMissingRejectFromBuffer
  by_cases h0 : effectiveNumDimensions opts ≤ 0 <;>
    by_cases he : effectiveNumDimensions opts = 0 <;>
    by_cases hl : effectiveNumDimensions opts < 0 <;>
    simp_all <;> omega

end Voyager
